import Mathlib

/-!
Shallow embedding of `src/download_stenos.py` (steno-protocol scraper for
psp.cz) and verification of the specification's claims about it.

Conventions of the embedding:
* Python strings are Lean `String`s; most algorithms work on `List Char`.
* Python dictionaries threaded through `self` become association lists
  (`List (key × value)`) so that insertion order is preserved exactly as
  CPython preserves it.
* Fallible operations (uncaught exceptions such as `KeyError` from the
  Czech month table, or `IndexError` on empty strings) are modelled with
  `Option`: `none` is an escaping exception.
* Network requests plus BeautifulSoup parsing are modelled by an oracle
  `fetch : String → Option Doc`; `none` models the `Exception` raised by
  `SessionParser.request` on a failed request.  A `Doc` abstracts exactly
  the soup features the program reads: the `<title>` text, the `<h1>`
  text, the `figcaption` block, and the list of `<a>` anchors.
-/

namespace Pspcz

/-- Whitespace in the sense of Python's `str.strip` and of the
whitespace class of the `re` module (unicode mode): ASCII whitespace, the
C1 controls `\x1c`-`\x1f`, `\x85`, the no-break space `\xa0` and the
usual unicode space characters. -/
def isWS (c : Char) : Bool :=
  c.toNat = 32 || c.toNat = 9 || c.toNat = 10 || c.toNat = 13 ||
  c.toNat = 11 || c.toNat = 12 || c.toNat = 28 || c.toNat = 29 ||
  c.toNat = 30 || c.toNat = 31 || c.toNat = 133 || c.toNat = 160 ||
  c.toNat = 5760 || (8192 ≤ c.toNat && c.toNat ≤ 8202) || c.toNat = 8232 ||
  c.toNat = 8233 || c.toNat = 8239 || c.toNat = 8287 || c.toNat = 12288

/-- The no-break space character `U+00A0`. -/
def nbsp : Char := ' '

/-- Digits in the sense of the `[0-9]` class applied to the ASCII page
content. -/
def isDigit (c : Char) : Bool := 48 ≤ c.toNat && c.toNat ≤ 57

/-- Python `str.strip()`: remove whitespace from both ends. -/
def stripL (l : List Char) : List Char :=
  ((l.dropWhile isWS).reverse.dropWhile isWS).reverse

/-- Python `str.strip()` on `String`. -/
def pyStrip (s : String) : String := String.mk (stripL s.data)

/-- Worker for the whitespace-run collapse of `filter_text`: `inRun`
records whether the previous input character was part of a whitespace run
that has already emitted its single replacement space. -/
def collapseAux : Bool → List Char → List Char
  | _, [] => []
  | inRun, c :: cs =>
    if isWS c then
      if inRun then collapseAux true cs else ' ' :: collapseAux true cs
    else c :: collapseAux false cs

/-- The `re.sub` call of `filter_text`: every maximal whitespace run
becomes one ordinary space. -/
def collapseWS (l : List Char) : List Char := collapseAux false l

/-- `SessionParser.filter_text`: strip a leading colon, replace no-break
spaces by spaces, collapse whitespace runs and strip the ends. -/
def filter_text (s : String) : String :=
  if s.data.isEmpty then ""
  else
    let t := match s.data with
             | ':' :: rest => stripL rest
             | l => l
    let t := t.map (fun c => if c = ' ' then ' ' else c)
    String.mk (stripL (collapseWS t))

/-! ### Insertion-ordered dictionaries

Python `dict`s preserve insertion order; assignment to an existing key
updates in place, assignment to a fresh key appends at the end. -/

/-- Dictionary lookup, `d[k]` / `k in d`. -/
def alookup {α β : Type} [DecidableEq α] : List (α × β) → α → Option β
  | [], _ => none
  | (k', v) :: rest, k => if k' = k then some v else alookup rest k

/-- Dictionary assignment `d[k] = v`. -/
def aupdate {α β : Type} [DecidableEq α] : List (α × β) → α → β → List (α × β)
  | [], k, v => [(k, v)]
  | (k', v') :: rest, k, v =>
    if k' = k then (k, v) :: rest else (k', v') :: aupdate rest k v

/-- Python's substring test `pat in s`. -/
def substrB : List Char → List Char → Bool
  | pat, [] => pat.isEmpty
  | pat, c :: cs => pat.isPrefixOf (c :: cs) || substrB pat cs

/-! ### The transcript segmenter (`SessionParser.parse_steno`) -/

/-- One left-to-right pass of Python's replace of a doubled underscore by
a single one (non-overlapping occurrences). -/
def collapseDoubleUnderscore : List Char → List Char
  | '_' :: '_' :: rest => '_' :: collapseDoubleUnderscore rest
  | c :: rest => c :: collapseDoubleUnderscore rest
  | [] => []

/-- Lines 389-399 of `parse_steno`: from the raw anchor text derive the
colon-stripped display label and the normalized speaker key.  `none`
models the `IndexError` that Python raises when indexing position `-1` of
an empty filtered string. -/
def speaker_label_and_key (label : String) : Option (String × String) :=
  let t := filter_text label
  match t.data.getLast? with
  | none => none
  | some c =>
    let slt := String.mk (if c = ':' then t.data.dropLast else t.data)
    let s := (stripL slt.data).map (fun ch => if ch = ' ' then '_' else ch)
    let s := s.map (fun ch => if ch = ',' then '_' else ch)
    some (slt, String.mk (collapseDoubleUnderscore s))

/-- An `<a>` element as the program reads it: optional `name`, `id` and
`href` attributes plus the anchor text. -/
structure Anchor where
  nameAttr : Option String
  idAttr : Option String
  href : Option String
  text : String
deriving DecidableEq

/-- A content paragraph of a transcript page: its full text, its text
after the leading anchor has been extracted, and its first anchor. -/
structure Para where
  text : String
  textNoAnchor : String
  anchor : Option Anchor
deriving DecidableEq

/-- The `Intervention` named tuple. -/
structure Intervention where
  stenoname : String
  text : String
  speaker_key : String
deriving DecidableEq

/-- The `Speaker` named tuple. -/
structure Speaker where
  stenoname : String
  pagename : String
  name : String
  titles : String
  function : String
  sex : String
  group : String
  birthdate : String
  link : String
deriving DecidableEq

/-- The loop state of `parse_steno`: current reference tag, accumulated
text, current speaker display string and key, the interventions found so
far and the session-wide speaker table. -/
structure StenoState where
  r_id : String
  text : String
  speaker : String
  speaker_key : String
  interventions : List (String × Intervention)
  speakers : List (String × Speaker)
deriving DecidableEq

/-- True when the anchor's `href` points into the voting record
(`hlasy.sqw`). -/
def hrefIsVotingRecord (a : Anchor) : Bool :=
  match a.href with
  | some h => substrB "hlasy.sqw".data h.data
  | none => false

/-- One iteration of the paragraph loop of `parse_steno` (lines
364-411). -/
def stepPara (st : StenoState) (p : Para) : Option StenoState :=
  if p.text = " " || p.text = "" then some st
  else
    match p.anchor with
    | some a =>
      if a.idAttr.isSome then
        if hrefIsVotingRecord a then some st
        else if a.text = "" then some st
        else
          match speaker_label_and_key a.text with
          | none => none
          | some (slt, key) =>
            let ints := if st.r_id ≠ "" then
                aupdate st.interventions st.r_id
                  ⟨st.speaker, pyStrip st.text, st.speaker_key⟩
              else st.interventions
            let spage := a.href.getD ""
            let speakers := if (alookup st.speakers key).isNone then
                st.speakers ++ [(key, ⟨slt, "", "", "", "", "", "", "", spage⟩)]
              else st.speakers
            some { r_id := a.idAttr.getD "",
                   text := filter_text (pyStrip p.textNoAnchor) ++ "\n",
                   speaker := key, speaker_key := key,
                   interventions := ints, speakers := speakers }
      else
        some { st with text := st.text ++ filter_text (pyStrip p.text) ++ "\n" }
    | none =>
      some { st with text := st.text ++ filter_text (pyStrip p.text) ++ "\n" }

/-- The paragraph loop of `parse_steno`. -/
def parse_stenoAux : StenoState → List Para → Option StenoState
  | st, [] => some st
  | st, p :: ps =>
    match stepPara st p with
    | none => none
    | some st' => parse_stenoAux st' ps

/-- `SessionParser.parse_steno`: segment a transcript page into a mapping
from reference tag to `Intervention`, also extending the speaker table.
`none` models an escaping exception. -/
def parse_steno (speakers0 : List (String × Speaker)) (paragraphs : List Para) :
    Option (List (String × Intervention) × List (String × Speaker)) :=
  match parse_stenoAux ⟨"", "", "", "", [], speakers0⟩ paragraphs with
  | none => none
  | some st =>
    let ints := if st.r_id ≠ "" then
        aupdate st.interventions st.r_id ⟨st.speaker, pyStrip st.text, st.speaker_key⟩
      else st.interventions
    some (ints, st.speakers)

/-! ### Date derivation (`SessionParser.get_steno_date`) -/

/-- The `CzechMonths` table mapping Czech month names (genitive) to month
numbers. -/
def CzechMonths : List (String × Nat) :=
  [("ledna", 1), ("února", 2), ("března", 3), ("dubna", 4), ("května", 5),
   ("června", 6), ("července", 7), ("srpna", 8), ("září", 9),
   ("října", 10), ("listopadu", 11), ("prosince", 12)]

/-- Python's zero-padding format of a number to width two. -/
def pad2 (n : Nat) : String := if n < 10 then "0" ++ toString n else toString n

/-- Python `int` on a digit string. -/
def digitsToNat (l : List Char) : Nat :=
  l.foldl (fun acc c => acc * 10 + (c.toNat - '0'.toNat)) 0

/-- Consume a literal pattern from the front of the input, returning the
remainder. -/
def litMatch : List Char → List Char → Option (List Char)
  | [], s => some s
  | _ :: _, [] => none
  | p :: ps, c :: cs => if p = c then litMatch ps cs else none

/-- The tail of the title pattern: a greedy any-run, one whitespace
character, four digits.  The recursion prefers the rightmost split, which
is exactly the greedy behaviour; returns (month-name group, year group). -/
def tailMatch : List Char → Option (List Char × List Char)
  | [] => none
  | c :: cs =>
    match tailMatch cs with
    | some (g2, g3) => some (c :: g2, g3)
    | none =>
      if isWS c && (cs.take 4).length == 4 && (cs.take 4).all isDigit then
        some ([], cs.take 4)
      else none

/-- Match the title date pattern at the start of the input: the literal
header, a digit run, one any-character, the literal schůze separator, the
day digit group, one any-character, one whitespace, then `tailMatch`.
The two digit runs are greedy with the single give-back step a
backtracking engine would take.  Returns (day, month name, year). -/
def stenoMatchAt (s : List Char) : Option (List Char × List Char × List Char) :=
  match litMatch "Stenografický zápis ".data s with
  | none => none
  | some r1 =>
    let ds := r1.takeWhile isDigit
    let r2 := r1.dropWhile isDigit
    if ds.isEmpty then none
    else
      let r4? : Option (List Char) :=
        match (match r2 with
               | _ :: r3 => litMatch " schůze, ".data r3
               | [] => none) with
        | some r4 => some r4
        | none => if 2 ≤ ds.length then litMatch " schůze, ".data r2 else none
      match r4? with
      | none => none
      | some r4 =>
        let day := r4.takeWhile isDigit
        let r5 := r4.dropWhile isDigit
        if day.isEmpty then none
        else
          let step : Option (List Char × List Char) :=
            match (match r5 with
                   | _ :: w :: r7 => if isWS w then some (day, r7) else none
                   | _ => none) with
            | some x => some x
            | none =>
              if 2 ≤ day.length then
                match r5 with
                | w :: r7 => if isWS w then some (day.dropLast, r7) else none
                | [] => none
              else none
          match step with
          | none => none
          | some (dayG, r7) =>
            match tailMatch r7 with
            | none => none
            | some (g2, g3) => some (dayG, g2, g3)

/-- Leftmost search for the title date pattern. -/
def stenoSearch : List Char → Option (List Char × List Char × List Char)
  | [] => none
  | c :: t =>
    match stenoMatchAt (c :: t) with
    | some g => some g
    | none => stenoSearch t

/-- `SessionParser.get_steno_date`: derive the `yyyymmdd` date string from
the page title.  `(false, "")` is the failure return of the function;
`none` models the `KeyError` escaping the `CzechMonths` lookup when a
matched month name is not in the table. -/
def get_steno_date (title : String) : Option (Bool × String) :=
  if title.data.isEmpty then some (false, "")
  else
    let t := title.data.map (fun c => if c = nbsp then ' ' else c)
    match stenoSearch t with
    | none => some (false, "")
    | some (day, mon, yr) =>
      match alookup CzechMonths (String.mk mon) with
      | none => none
      | some m => some (true, String.mk yr ++ pad2 m ++ pad2 (digitsToNat day))

/-! ### The sub-page resolver (`parse_sublink_order`,
`parse_interventions_page`, `get_qid_for_topic`) -/

/-- The `InterventionInfo` named tuple. -/
structure InterventionInfo where
  pageref : String
  stenopage : String
  reftag : String
  steno_name : String
  date : String
deriving DecidableEq

/-- A fetched document, abstracting exactly the soup features the program
reads. -/
structure Doc where
  title : String
  h1 : String
  figcaption : Option String
  anchors : List Anchor
deriving DecidableEq

/-- The inner `Page` record of `SessionParser`. -/
structure PageRec where
  link : String
  date_string : String
  content : Doc
deriving DecidableEq

/-- The part of the session state read and written by the sub-page
resolver: the `pages` cache and the `interventions_info` index. -/
structure ResolverState where
  pages : List (String × PageRec)
  interventions_info : List (String × List InterventionInfo)
deriving DecidableEq

/-- `SessionParser.get_qid_for_topic`: the q-id pattern, anchored at the
end: the link must end in a literal html-hash-q followed by one or more
digits; the returned group is the q plus the digits. -/
def get_qid_for_topic (link : String) : Option String :=
  let l := link.data
  let ds := (l.reverse.takeWhile isDigit).reverse
  let pre := l.take (l.length - ds.length)
  if ds.isEmpty then none
  else if ("html#q".data).isSuffixOf pre then some (String.mk ('q' :: ds))
  else none

/-- The intervention-anchor pattern of `parse_interventions_page`: an
href ending in an s-page file name, a hash and an r-tag.  Parsed from the
right: trailing digits, the r and the hash, the htm suffix, one
any-character, more digits and the leading s.  Returns
(whole match, steno page name, reference tag). -/
def interventionLinkSearch (h : String) : Option (String × String × String) :=
  let rev := h.data.reverse
  let ds2 := rev.takeWhile isDigit
  match rev.drop ds2.length with
  | 'r' :: '#' :: 'm' :: 't' :: 'h' :: v =>
    match v with
    | c :: w =>
      let ds1 := w.takeWhile isDigit
      match w.drop ds1.length with
      | 's' :: _ =>
        let stenopage := ('s' :: ds1.reverse) ++ (c :: ['h', 't', 'm'])
        let reftag := 'r' :: ds2.reverse
        some (String.mk (stenopage ++ ('#' :: reftag)),
              String.mk stenopage, String.mk reftag)
      | _ => none
    | [] => none
  | _ => none

/-- The anchor loop of `SessionParser.parse_interventions_page`: an
anchor with a `name` attribute opens a reference group (inserting an
empty list for a fresh group); an anchor with an `href` under an open
group and matching the intervention pattern is appended to that group's
list unless an equal record is already present.

Every group key that is current was inserted earlier in the same run, so
the current group's list is always present; the `getD` default is never
taken. -/
def parse_interventions_pageAux (date : String) :
    String → List (String × List InterventionInfo) → List Anchor →
    List (String × List InterventionInfo)
  | _, ii, [] => ii
  | q_id, ii, a :: rest =>
    match a.nameAttr with
    | some n =>
      let ii' := if (alookup ii n).isNone then ii ++ [(n, [])] else ii
      parse_interventions_pageAux date n ii' rest
    | none =>
      match a.href with
      | some h =>
        if q_id ≠ "" then
          match interventionLinkSearch h with
          | some (g0, g1, g2) =>
            let info : InterventionInfo := ⟨g0, g1, g2, filter_text a.text, date⟩
            let cur := (alookup ii q_id).getD []
            let ii' := if info ∈ cur then ii else aupdate ii q_id (cur ++ [info])
            parse_interventions_pageAux date q_id ii' rest
          | none => parse_interventions_pageAux date q_id ii rest
        else parse_interventions_pageAux date q_id ii rest
      | none => parse_interventions_pageAux date q_id ii rest

/-- `SessionParser.parse_interventions_page`. -/
def parse_interventions_page (ii : List (String × List InterventionInfo))
    (anchors : List Anchor) (date : String) : List (String × List InterventionInfo) :=
  parse_interventions_pageAux date "" ii anchors

/-- Last occurrence of `pat` in `l` starting at an index of at least
`minStart`; used to model the greedy any-runs of the page-name
patterns. -/
def findLastOcc (pat l : List Char) (minStart : Nat) : Option Nat :=
  (((List.range (l.length + 1)).filter
      (fun j => decide (minStart ≤ j) && pat.isPrefixOf (l.drop j))).getLast?)

/-- The page-name patterns of `parse_sublink_order`.  From 2010 on the
group runs up to the last html occurrence that has at least one character
before it; before 2010 the same group is taken after the last schuz
directory marker. -/
def pageNameMatch (year : Nat) (sublink : String) : Option String :=
  if 2010 ≤ year then
    match findLastOcc "html".data sublink.data 1 with
    | some j => some (String.mk (sublink.data.take (j + 4)))
    | none => none
  else
    match findLastOcc "schuz/".data sublink.data 0 with
    | some k =>
      let rest := sublink.data.drop (k + 6)
      match findLastOcc "html".data rest 1 with
      | some j => some (String.mk (rest.take (j + 4)))
      | none => none
    | none => none

/-- `SessionParser.parse_sublink_order`.  The `order_id` parameter of the
Python function is never read in its body and is omitted here.  `none`
models the month-table `KeyError` escaping from `get_steno_date`; it can
only occur before any state is changed. -/
def parse_sublink_order (year : Nat) (sublinks : String)
    (fetch : String → Option Doc) (st : ResolverState) (sublink : String) :
    Option (Bool × ResolverState) :=
  match pageNameMatch year sublink with
  | none => some (false, st)
  | some page_idx =>
    if (alookup st.pages page_idx).isSome then some (true, st)
    else
      let link := if 2010 ≤ year then sublinks ++ sublink else sublinks ++ page_idx
      match fetch link with
      | none => some (false, st)
      | some doc =>
        match get_steno_date doc.title with
        | none => none
        | some (false, _) => some (false, st)
        | some (true, date) =>
          let ii' := parse_interventions_page st.interventions_info doc.anchors date
          some (true, { pages := st.pages ++ [(page_idx, ⟨link, date, doc⟩)],
                        interventions_info := ii' })

/-- The per-session state seen by the topic loop: the `topics` mapping
plus the resolver state. -/
structure FullState where
  topics : List (Nat × List InterventionInfo)
  resolver : ResolverState
deriving DecidableEq

/-- One iteration over the non-heading links of a topic paragraph in
`parse_session_post_2013` (lines 172-187): skip history links, extract
the q-id, resolve the sub-page, and on success extend the topic's list
with the references indexed under that q-id.  Every failing dictionary
access raises a `KeyError` that the surrounding handler turns into a
plain skip of the link, with all state changes made so far kept. -/
def processTopicLink (year : Nat) (sublinks : String)
    (fetch : String → Option Doc) (st : FullState) (topic_id : Nat)
    (link : Anchor) : FullState :=
  match link.href with
  | none => st
  | some sublink =>
    if substrB "/sqw/historie.sqw".data sublink.data then st
    else
      match get_qid_for_topic sublink with
      | none => st
      | some q_id =>
        match parse_sublink_order year sublinks fetch st.resolver sublink with
        | none => st
        | some (false, rs) => { st with resolver := rs }
        | some (true, rs) =>
          match alookup rs.interventions_info q_id with
          | none => { st with resolver := rs }
          | some refs =>
            match alookup st.topics topic_id with
            | none => { st with resolver := rs }
            | some cur =>
              { topics := aupdate st.topics topic_id (cur ++ refs), resolver := rs }

/-! ### File generation (`SessionParser.generate_files_and_report`) -/

/-- Python's zero-padding format of a number to width three. -/
def pad3 (n : Nat) : String :=
  if n < 10 then "00" ++ toString n
  else if n < 100 then "0" ++ toString n
  else toString n

/-- `SessionParser.generate_file_name`. -/
def generate_file_name (session_number : Nat) (date_string : String)
    (topic_id : Nat) (order : Nat) (name : String) : String :=
  "s_" ++ pad3 session_number ++ "_" ++ date_string ++ "_t_" ++ pad3 topic_id ++
  "_i_" ++ pad3 order ++ "_" ++ name ++ ".txt"

/-- One line of the file-summary table. -/
def tsvRow (session_number : Nat) (date : String) (topic_id : Nat)
    (title : String) (order : Nat) (name sname fname : String) : String :=
  toString session_number ++ "\t" ++ date ++ "\t" ++ toString topic_id ++ "\t" ++
  title ++ "\t" ++ toString order ++ "\t" ++ name ++ "\t" ++ sname ++ "\t" ++
  fname ++ "\n"

/-- The loop state of `generate_files_and_report`: the `visited_links`
bookkeeping, the text files written so far (name and content) and the
summary rows appended so far. -/
structure GenState where
  visited : List (String × List String)
  files : List (String × String)
  rows : List String
deriving DecidableEq

/-- The body of the inner loop of `generate_files_and_report` (lines
569-605) for one `InterventionInfo`.  First the `visited_links`
bookkeeping exactly as written: a fresh steno page gets an empty tag
list (the current tag is not recorded); for a known page a recorded tag
is skipped, an unrecorded one is recorded and processed.  Then the steno
lookup; on success the text file is written; the summary row needs the
topic title and the speaker record, and a failing lookup there raises a
`KeyError` after the file write, so the file exists without a row. -/
def genItem (session_number : Nat)
    (stenos : List (String × List (String × Intervention)))
    (topic_titles : List (Nat × String)) (speakers : List (String × Speaker))
    (topic_id : Nat) (idx : Nat) (st : GenState) (int_info : InterventionInfo) :
    GenState :=
  let proceed : List (String × List String) → GenState := fun v =>
    match (alookup stenos int_info.stenopage).bind
            (fun m => alookup m int_info.reftag) with
    | none => { st with visited := v }
    | some steno =>
      let fname := generate_file_name session_number int_info.date topic_id
        (idx + 1) steno.stenoname
      let files := st.files ++ [(fname, steno.text)]
      match alookup topic_titles topic_id, alookup speakers steno.speaker_key with
      | some title, some sp =>
        { visited := v, files := files,
          rows := st.rows ++ [tsvRow session_number int_info.date topic_id title
            (idx + 1) sp.name steno.stenoname fname] }
      | _, _ => { visited := v, files := files, rows := st.rows }
  match alookup st.visited int_info.stenopage with
  | none => proceed (st.visited ++ [(int_info.stenopage, [])])
  | some tags =>
    if int_info.reftag ∈ tags then st
    else proceed (aupdate st.visited int_info.stenopage (tags ++ [int_info.reftag]))

/-- The per-topic loop of `generate_files_and_report`. -/
def genTopic (session_number : Nat)
    (stenos : List (String × List (String × Intervention)))
    (topic_titles : List (Nat × String)) (speakers : List (String × Speaker))
    (st : GenState) (topic_id : Nat) (items : List InterventionInfo) : GenState :=
  items.enum.foldl
    (fun st p => genItem session_number stenos topic_titles speakers topic_id
      p.1 st p.2) st

/-- `SessionParser.generate_files_and_report`, reduced to the data it
produces: the files written and the summary rows appended, in order. -/
def generate_files_and_report (session_number : Nat)
    (stenos : List (String × List (String × Intervention)))
    (topic_titles : List (Nat × String)) (speakers : List (String × Speaker))
    (topics : List (Nat × List InterventionInfo)) : GenState :=
  topics.foldl
    (fun st p => genTopic session_number stenos topic_titles speakers st p.1 p.2)
    ⟨[], [], []⟩

/-! ### Speaker identity resolution (`parse_speakers`,
`get_speakers_name`) -/

/-- Python `str.replace` for a non-empty pattern, left-to-right over
non-overlapping occurrences; the fuel argument is instantiated with the
input length, an upper bound on the number of steps. -/
def replFuel (pat new : List Char) : Nat → List Char → List Char
  | 0, l => l
  | _ + 1, [] => []
  | f + 1, c :: cs =>
    if pat.isPrefixOf (c :: cs) then new ++ replFuel pat new f ((c :: cs).drop pat.length)
    else c :: replFuel pat new f cs

/-- Python `str.replace` with an empty pattern: the replacement is
inserted before every character and at the end. -/
def interNew (new : List Char) : List Char → List Char
  | [] => []
  | c :: cs => c :: (new ++ interNew new cs)

/-- Python `str.replace`. -/
def pyReplace (s pat new : String) : String :=
  if pat.data.isEmpty then String.mk (new.data ++ interNew new.data s.data)
  else String.mk (replFuel pat.data new.data s.data.length s.data)

/-- The `title_strings` list of `get_speakers_name`.  The source writes
two adjacent string literals between `Th` and `prof.`, which Python
concatenates into a single entry. -/
def title_strings : List String :=
  ["doc.", "Prof.", "RSDR.", "RSDr.", "RNDr.", "Ing.", "JUDr.", "PhDr.",
   "Mgr.", "MBA", "ThMgr.", "CSc.", "PaedDr.", "Ph.D.", "MUDr.", "Bc.",
   "arch.", "Doc.", "MVDr.", "Thprof.", "MVDR.", "MgA.", "PhD.JU", "ThDr.",
   "PhD.", "DrSc.", "Dr."]

/-- The gendered role nouns for men. -/
def male_strings : List String :=
  ["Poslanec", "Ministr", "Místopředseda", "Předseda", "Senátor", "poslanec",
   "ministr", "místopředseda", "předseda", "senátor"]

/-- The gendered role nouns for women. -/
def female_strings : List String :=
  ["Poslankyně", "Ministryně", "Členka", "Senátorka", "Místopředsedkyně",
   "poslankyně", "ministryně", "členka", "senátorka", "místopředsedkyně"]

/-- `SessionParser.get_speakers_name`: split title abbreviations off the
page name, take the residual of the steno label as the function text and
infer the gender from it.  Returns (name, titles, function, sex). -/
def get_speakers_name (page_name steno_name : String) :
    String × String × String × String :=
  let pn0 := pyStrip (pyReplace page_name "," "")
  let acc := title_strings.foldl
    (fun (acc : String × String) t =>
      if substrB t.data acc.1.data then
        (pyStrip (pyReplace acc.1 t ""), acc.2 ++ t ++ " ")
      else acc) (pn0, "")
  let name := acc.1
  let titles := pyStrip acc.2
  let function := pyStrip (pyReplace steno_name name "")
  let sex :=
    if female_strings.any (fun f => substrB f.data function.data) then "Woman"
    else if male_strings.any (fun m => substrB m.data function.data) then "Man"
    else ""
  (name, titles, function, sex)

/-- Pad a digit string on the left with zeros to the given width. -/
def padStr (w : Nat) (s : String) : String :=
  if s.length < w then String.mk (List.replicate (w - s.length) '0') ++ s else s

/-- The `(\d+)\..(\d+)\..(\d+)` core of the two birth-date patterns: a
digit run, a literal dot, one any-character, twice over, then a final
digit run.  Returns (day, month, year, remainder). -/
def birthTriple (r : List Char) : Option (List Char × List Char × List Char × List Char) :=
  let d := r.takeWhile isDigit
  let r1 := r.dropWhile isDigit
  if d.isEmpty then none
  else
    match r1 with
    | '.' :: _ :: r2 =>
      let m := r2.takeWhile isDigit
      let r3 := r2.dropWhile isDigit
      if m.isEmpty then none
      else
        match r3 with
        | '.' :: _ :: r4 =>
          let y := r4.takeWhile isDigit
          let r5 := r4.dropWhile isDigit
          if y.isEmpty then none else some (d, m, y, r5)
        | _ => none
    | _ => none

/-- The electoral-list tail of the first figcaption pattern at the
current position: the literal Zvolen, an optional any-character and the
kandidátka separator; returns the rest of the input, the captured
group. -/
def kandidatkaAt (l : List Char) : Option (List Char) :=
  match litMatch "Zvolen".data l with
  | some r =>
    match (match r with
           | _ :: r2 => litMatch " na kandidátce: ".data r2
           | [] => none) with
    | some r3 => some r3
    | none => litMatch " na kandidátce: ".data r
  | none => none

/-- Greedy search for the last electoral-list tail, as the greedy any-run
before it would find it. -/
def lastKandidatka : List Char → Option (List Char)
  | [] => none
  | c :: t =>
    match lastKandidatka t with
    | some g => some g
    | none => kandidatkaAt (c :: t)

/-- The first figcaption pattern at the current position: Narozen with an
optional any-character, the colon-space, the birth triple and the
electoral-list tail. -/
def figMatch1At (l : List Char) : Option (List Char × List Char × List Char × List Char) :=
  match litMatch "Narozen".data l with
  | none => none
  | some r =>
    match (match (match r with
                  | _ :: rr => litMatch ": ".data rr
                  | [] => none) with
           | some x => some x
           | none => litMatch ": ".data r) with
    | none => none
    | some r2 =>
      match birthTriple r2 with
      | none => none
      | some (d, m, y, rest) =>
        match lastKandidatka rest with
        | none => none
        | some grp => some (d, m, y, grp)

/-- Leftmost search for the first figcaption pattern. -/
def figSearch1 : List Char → Option (List Char × List Char × List Char × List Char)
  | [] => none
  | c :: t =>
    match figMatch1At (c :: t) with
    | some g => some g
    | none => figSearch1 t

/-- The second figcaption pattern at the current position: the literal
Narozen colon-space, the birth triple, anchored at the end. -/
def figMatch2At (l : List Char) : Option (List Char × List Char × List Char) :=
  match litMatch "Narozen: ".data l with
  | none => none
  | some r =>
    match birthTriple r with
    | some (d, m, y, rest) => if rest.isEmpty then some (d, m, y) else none
    | none => none

/-- Leftmost search for the second figcaption pattern. -/
def figSearch2 : List Char → Option (List Char × List Char × List Char)
  | [] => none
  | c :: t =>
    match figMatch2At (c :: t) with
    | some g => some g
    | none => figSearch2 t

/-- The figcaption block of `parse_speakers` (lines 457-475): extract the
electoral list and the birth date in `yyyymmdd` from the filtered
caption text. -/
def parse_figcaption (text : String) : String × String :=
  if substrB "Zvolen".data text.data then
    match figSearch1 text.data with
    | some (d, m, y, grp) =>
      (String.mk grp,
       padStr 4 (String.mk y) ++ padStr 2 (String.mk m) ++ padStr 2 (String.mk d))
    | none => ("", "")
  else
    match figSearch2 text.data with
    | some (d, m, y) =>
      ("", padStr 4 (String.mk y) ++ padStr 2 (String.mk m) ++ padStr 2 (String.mk d))
    | none => ("", "")

/-- The legislator detail-page id pattern of `parse_speakers`: the link
must end in the detail query with a trailing id number. -/
def detailIdMatch (link : String) : Bool :=
  let l := link.data
  let ds := (l.reverse.takeWhile isDigit).reverse
  !ds.isEmpty &&
    ("/sqw/detail.sqw?id=".data).isSuffixOf (l.take (l.length - ds.length))

/-- The body of the `parse_speakers` loop for one speaker record.  A
record already carrying a non-empty name is left untouched without any
fetch.  Otherwise the biography page named by the link is fetched; a
fetch failure is `sys.exit(-1)`, modelled as `Except.error ()`.  On
success the record is rebuilt from the page heading, the figcaption and
the steno label. -/
def enrich_speaker (fetch : String → Option Doc) (sp : Speaker) :
    Except Unit Speaker :=
  if 0 < sp.name.length then .ok sp
  else if substrB "https://www.vlada.cz/cz/".data sp.link.data then
    match fetch sp.link with
    | none => .error ()
    | some doc =>
      let page_name := filter_text doc.h1
      let r := get_speakers_name page_name sp.stenoname
      .ok ⟨sp.stenoname, page_name, r.1, r.2.1, r.2.2.1, r.2.2.2, "", "", sp.link⟩
  else if substrB "/sqw/detail.sqw".data sp.link.data then
    if detailIdMatch sp.link then
      match fetch ("http://www.psp.cz/" ++ sp.link) with
      | none => .error ()
      | some doc =>
        let page_name := filter_text doc.h1
        let gb := match doc.figcaption with
          | none => ("", "")
          | some fc => parse_figcaption (filter_text fc)
        let r := get_speakers_name page_name sp.stenoname
        .ok ⟨sp.stenoname, page_name, r.1, r.2.1, r.2.2.1, r.2.2.2, gb.1, gb.2,
             sp.link⟩
    else
      let r := get_speakers_name "" sp.stenoname
      .ok ⟨sp.stenoname, "", r.1, r.2.1, r.2.2.1, r.2.2.2, "", "", sp.link⟩
  else
    let r := get_speakers_name "" sp.stenoname
    .ok ⟨sp.stenoname, "", r.1, r.2.1, r.2.2.1, r.2.2.2, "", "", sp.link⟩

/-! ## Concrete fixtures used by the claim theorems and witnesses -/

/-- A reference to intervention r1 on steno page s001.htm. -/
def genInfo : InterventionInfo :=
  ⟨"s001.htm#r1", "s001.htm", "r1", "Poslanec A", "20150203"⟩

/-- A parsed intervention for the fixture. -/
def genIntervention : Intervention := ⟨"Poslanec_A", "Hello", "Poslanec_A"⟩

/-- A steno dictionary holding the fixture intervention. -/
def genStenos : List (String × List (String × Intervention)) :=
  [("s001.htm", [("r1", genIntervention)])]

/-- Topic titles for the fixture. -/
def genTitles : List (Nat × String) := [(1, "T")]

/-- A speaker table for the fixture. -/
def genSpeakers : List (String × Speaker) :=
  [("Poslanec_A", ⟨"Poslanec A", "", "Jan Novák", "", "", "", "", "", ""⟩)]

/-- A sub-page document: a valid steno title, one reference group q1 and
one intervention anchor inside it. -/
def subPageDoc : Doc :=
  ⟨"Stenografický zápis 5. schůze, 3. února 2015", "", none,
   [⟨some "q1", none, none, ""⟩,
    ⟨none, none, some "s001001.htm#r1", "Poslanec A"⟩]⟩

/-- A fetch oracle always returning the fixture sub-page. -/
def subPageFetch : String → Option Doc := fun _ => some subPageDoc

/-- The reference produced from the fixture sub-page. -/
def subPageRef : InterventionInfo :=
  ⟨"s001001.htm#r1", "s001001.htm", "r1", "Poslanec A", "20150203"⟩

/-- A session state with one empty topic and an empty resolver. -/
def topicInit : FullState := ⟨[(1, [])], ⟨[], []⟩⟩

/-- The topic link used in the duplicate-resolution scenario. -/
def topicLink : Anchor := ⟨none, none, some "s001.html#q1", ""⟩

/-- A turn-opening paragraph for deputy A. -/
def turnPara : Para :=
  ⟨"Poslanec A: Hello", "Hello", some ⟨none, some "r1", none, "Poslanec A:"⟩⟩

/-- A non-empty paragraph whose anchor has an id and a voting-record
href. -/
def votingPara : Para :=
  ⟨"Vote result 123", "Vote result 123",
   some ⟨none, some "h1", some "/sqw/hlasy.sqw?g=1", "link"⟩⟩

/-- A plain text paragraph without an anchor. -/
def plainPara : Para := ⟨"World", "World", none⟩

/-- Witness data for the idempotence theorem: the resolver state after
the first successful resolution of the fixture sub-page. -/
def resolvedState : ResolverState :=
  ⟨[("s001.html", ⟨"BASE/s001.html#q1", "20150203", subPageDoc⟩)],
   [("q1", [subPageRef])]⟩

/-- A sub-page document whose title carries no parseable date. -/
def undatedDoc : Doc := ⟨"Stenozáznam", "", none, []⟩

/-- Two adjacent characters are not both whitespace. -/
def noDoubleWS (a b : Char) : Prop := isWS a = false ∨ isWS b = false

/-! ## Claim C1 -/

/-- Claim C1 (code bug): evaluation of the file-generation loop at a
topic whose list holds the same (sub-page, referenceTag) pair twice.
Contrary to the claim, the second occurrence is written as well — two
files with distinct names and two summary rows result — because the
`visited_links` bookkeeping never records a tag on its first visit; only
from the third occurrence on is the pair skipped. -/
theorem generate_files_writes_duplicate_pair_twice :
    (generate_files_and_report 5 genStenos genTitles genSpeakers
        [(1, [genInfo, genInfo])]).files =
      [("s_005_20150203_t_001_i_001_Poslanec_A.txt", "Hello"),
       ("s_005_20150203_t_001_i_002_Poslanec_A.txt", "Hello")] ∧
    (generate_files_and_report 5 genStenos genTitles genSpeakers
        [(1, [genInfo, genInfo])]).rows.length = 2 ∧
    (generate_files_and_report 5 genStenos genTitles genSpeakers
        [(1, [genInfo, genInfo, genInfo])]).files.length = 2 := by decide

/-! ## Claim C2 -/

/-- Claim C2, counterexample: resolving the same sub-page link twice
under one topic extends the topic's list twice with the same reference;
the resulting topic list holds two entries equal in all fields, so it is
not duplicate-free. -/
theorem topic_list_duplicated_after_double_resolution :
    (alookup (processTopicLink 2015 "BASE/" subPageFetch
        (processTopicLink 2015 "BASE/" subPageFetch topicInit 1 topicLink)
        1 topicLink).topics 1) = some [subPageRef, subPageRef] ∧
    ¬ [subPageRef, subPageRef].Nodup := by
  constructor
  · decide
  · decide

/-! ## Claim C5 -/

/-- Claim C5: the display label of deputy Jan Novák is normalized by the
transcript segmenter to the expected colon-stripped label and
underscore-joined speaker key. -/
theorem speaker_key_of_novak_label :
    speaker_label_and_key "Poslanec Jan Novák:" =
      some ("Poslanec Jan Novák", "Poslanec_Jan_Novák") := by decide

/-! ## Claim C7 -/

/-- Claim C7: speaker enrichment is idempotent — a record whose name
field is already non-empty is returned unchanged for every fetch oracle,
so nothing is fetched and no field is rewritten. -/
theorem enrich_speaker_enriched_untouched (f : String → Option Doc)
    (sp : Speaker) (h : 0 < sp.name.length) :
    enrich_speaker f sp = .ok sp := by
  unfold enrich_speaker
  rw [if_pos h]

/-- Witness for the enrichment idempotence theorem at a concrete
already-enriched speaker and a fetch oracle that always fails. -/
theorem enrich_speaker_enriched_untouched_witness :
    enrich_speaker (fun _ => none)
        ⟨"Poslanec A", "", "Jan Novák", "", "", "", "", "", ""⟩ =
      .ok ⟨"Poslanec A", "", "Jan Novák", "", "", "", "", "", ""⟩ :=
  enrich_speaker_enriched_untouched _ _ (by decide)

/-! ## Claim C3 -/




/-- Claim C3, counterexample: the non-empty voting-record paragraph
between two content paragraphs contributes no text at all — the
resulting intervention text is exactly the other two paragraphs and does
not contain the voting paragraph's text. -/
theorem voting_paragraph_text_not_appended :
    parse_steno [] [turnPara, votingPara, plainPara] =
      some ([("r1", ⟨"Poslanec_A", "Hello\nWorld", "Poslanec_A"⟩)],
            [("Poslanec_A", ⟨"Poslanec A", "", "", "", "", "", "", "", ""⟩)]) ∧
    substrB "Vote result 123".data "Hello\nWorld".data = false := by decide

/-- Claim C3, amended: in one pass of the transcript segmenter a
non-empty paragraph whose first anchor carries an id together with a
voting-record href, or an id together with empty anchor text, is skipped
entirely: its filtered text is not appended and the state is unchanged.
Every other non-empty paragraph appends its filtered text in document
order: without a turn-opening anchor it extends the existing buffer, and
a turn-opening paragraph restarts the buffer with its own anchor-free
filtered text. -/
theorem stepPara_text_accumulation (st : StenoState) (p : Para)
    (h1 : p.text ≠ "\u00A0") (h2 : p.text ≠ "") :
    (∀ a, p.anchor = some a → a.idAttr.isSome = true →
        hrefIsVotingRecord a = true → stepPara st p = some st) ∧
    (∀ a, p.anchor = some a → a.idAttr.isSome = true →
        hrefIsVotingRecord a = false → a.text = "" → stepPara st p = some st) ∧
    (p.anchor = none →
        stepPara st p =
          some { st with text := st.text ++ filter_text (pyStrip p.text) ++ "\n" }) ∧
    (∀ a, p.anchor = some a → a.idAttr = none →
        stepPara st p =
          some { st with text := st.text ++ filter_text (pyStrip p.text) ++ "\n" }) ∧
    (∀ a, p.anchor = some a → a.idAttr.isSome = true →
        hrefIsVotingRecord a = false → a.text ≠ "" → ∀ st',
        stepPara st p = some st' →
        st'.text = filter_text (pyStrip p.textNoAnchor) ++ "\n") := by
  refine ⟨?_, ?_, ?_, ?_, ?_⟩
  · intro a ha hid hv
    simp [stepPara, h1, h2, ha, hid, hv]
  · intro a ha hid hv ht
    simp [stepPara, h1, h2, ha, hid, hv, ht]
  · intro ha
    simp [stepPara, h1, h2, ha]
  · intro a ha hid
    simp [stepPara, h1, h2, ha, hid]
  · intro a ha hid hv ht st' hst
    simp only [stepPara, h1, h2, ha, hid, hv, ht] at hst
    simp only [if_neg, Bool.or_eq_true, decide_eq_true_eq] at hst
    rcases hkey : speaker_label_and_key a.text with _ | ⟨slt, key⟩ <;>
      rw [hkey] at hst
    · simp at hst
    · simp at hst
      rw [← hst]

/-- Witness for the amended paragraph-accumulation theorem: the concrete
voting-record paragraph leaves the initial state untouched. -/
theorem stepPara_text_accumulation_witness :
    stepPara ⟨"", "", "", "", [], []⟩ votingPara =
      some ⟨"", "", "", "", [], []⟩ :=
  (stepPara_text_accumulation _ votingPara (by decide) (by decide)).1
    _ rfl (by decide) (by decide)

/-! ## Dictionary lemmas -/

/-- A successful lookup returns a member pair. -/
theorem alookup_mem {α β : Type} [DecidableEq α] (l : List (α × β)) (k : α)
    (v : β) (h : alookup l k = some v) : (k, v) ∈ l := by
  induction l with
  | nil => simp [alookup] at h
  | cons p rest ih =>
    obtain ⟨k', v'⟩ := p
    by_cases hk : k' = k
    · subst hk
      simp [alookup] at h
      simp [h]
    · simp [alookup, hk] at h
      exact List.mem_cons_of_mem _ (ih h)

/-- Every pair of an updated dictionary is the updated pair or an old
pair. -/
theorem mem_aupdate {α β : Type} [DecidableEq α] (l : List (α × β)) (k : α)
    (v : β) (q : α × β) (h : q ∈ aupdate l k v) : q = (k, v) ∨ q ∈ l := by
  induction l with
  | nil =>
    simp [aupdate] at h
    simp [h]
  | cons p rest ih =>
    obtain ⟨k', v'⟩ := p
    by_cases hk : k' = k
    · subst hk
      simp [aupdate] at h
      rcases h with h | h
      · left
        simp [h]
      · right
        exact List.mem_cons_of_mem _ h
    · simp [aupdate, hk] at h
      rcases h with h | h
      · right
        simp [h]
      · rcases ih h with h' | h'
        · left
          exact h'
        · right
          exact List.mem_cons_of_mem _ h'

/-- Appending a fresh element to a duplicate-free list keeps it
duplicate-free. -/
theorem nodup_append_singleton {α : Type} (l : List α) (x : α)
    (h1 : l.Nodup) (h2 : x ∉ l) : (l ++ [x]).Nodup := by
  simp [List.nodup_append, h1, h2]

/-- A lookup after appending a binding for the key succeeds. -/
theorem alookup_append_singleton_isSome {α β : Type} [DecidableEq α]
    (l : List (α × β)) (k : α) (v : β) :
    (alookup (l ++ [(k, v)]) k).isSome = true := by
  induction l with
  | nil => simp [alookup]
  | cons p rest ih =>
    obtain ⟨k', v'⟩ := p
    by_cases hk : k' = k <;> simp [alookup, hk, ih]

/-! ## Claim C2, amended part -/

/-- The anchor loop of the sub-page indexer keeps every reference-tag
list of the interventions index free of duplicates. -/
theorem parse_interventions_pageAux_nodup (date : String)
    (anchors : List Anchor) :
    ∀ (q_id : String) (ii : List (String × List InterventionInfo)),
      (∀ p ∈ ii, p.2.Nodup) →
      ∀ p ∈ parse_interventions_pageAux date q_id ii anchors, p.2.Nodup := by
  induction anchors with
  | nil =>
    intro q ii h p hp
    simp only [parse_interventions_pageAux] at hp
    exact h p hp
  | cons a rest ih =>
    intro q ii h p hp
    simp only [parse_interventions_pageAux] at hp
    rcases hna : a.nameAttr with _ | n <;> simp only [hna] at hp
    · rcases hh : a.href with _ | href <;> simp only [hh] at hp
      · exact ih q ii h p hp
      · by_cases hq : q ≠ ""
        · rw [if_pos hq] at hp
          rcases hs : interventionLinkSearch href with _ | ⟨g0, g1, g2⟩ <;>
            simp only [hs] at hp
          · exact ih q ii h p hp
          · set info : InterventionInfo :=
              ⟨g0, g1, g2, filter_text a.text, date⟩ with hinfo
            set cur := (alookup ii q).getD [] with hcur
            have hcurnd : info ∉ cur → (cur ++ [info]).Nodup := by
              intro hni
              refine nodup_append_singleton _ _ ?_ hni
              rcases halo : alookup ii q with _ | c
              · simp [hcur, halo]
              · have := h (q, c) (alookup_mem _ _ _ halo)
                simpa [hcur, halo] using this
            by_cases hmem : info ∈ cur
            · rw [if_pos hmem] at hp
              exact ih q ii h p hp
            · rw [if_neg hmem] at hp
              refine ih q (aupdate ii q (cur ++ [info])) ?_ p hp
              intro r hr
              rcases mem_aupdate _ _ _ _ hr with h' | h'
              · rw [h']
                exact hcurnd hmem
              · exact h r h'
        · rw [if_neg hq] at hp
          exact ih q ii h p hp
    · by_cases hmem : (alookup ii n).isNone = true
      · rw [if_pos hmem] at hp
        refine ih n (ii ++ [(n, [])]) ?_ p hp
        intro r hr
        rcases List.mem_append.mp hr with h' | h'
        · exact h r h'
        · simp at h'
          simp [h']
      · rw [if_neg hmem] at hp
        exact ih n ii h p hp

/-- Claim C2, amended: full-equality de-duplication holds within each
reference-tag list of the InterventionsIndex (the second duplicate test
of the program), not within a topic's list: starting from an index whose
lists are duplicate-free, indexing a page's anchors keeps every list
duplicate-free — while the topic extension appends whatever the index
holds without any skip, so a topic list can receive equal entries (see
the counterexample). -/
theorem parse_interventions_page_nodup
    (ii : List (String × List InterventionInfo)) (anchors : List Anchor)
    (date : String) (h : ∀ p ∈ ii, p.2.Nodup) :
    ∀ p ∈ parse_interventions_page ii anchors date, p.2.Nodup :=
  parse_interventions_pageAux_nodup date anchors "" ii h

/-- Witness: indexing the fixture sub-page from an empty index yields the
q1 group with a single, duplicate-free reference list. -/
theorem parse_interventions_page_nodup_witness :
    ("q1", [subPageRef]) ∈ parse_interventions_page [] subPageDoc.anchors "20150203" ∧
    [subPageRef].Nodup :=
  ⟨by decide,
   parse_interventions_page_nodup [] subPageDoc.anchors "20150203"
     (by intro p hp; simp at hp) ("q1", [subPageRef]) (by decide)⟩

/-! ## Claim C6 -/

/-- Claim C6: once a sub-page has been resolved successfully, resolving
the same sub-page link again — under any fetch oracle, so without any
re-fetch — returns true and leaves the resolver state (pages cache and
InterventionsIndex) exactly as it was. -/
theorem parse_sublink_order_idempotent (year : Nat) (sublinks : String)
    (f g : String → Option Doc) (st st' : ResolverState) (sublink : String)
    (h : parse_sublink_order year sublinks f st sublink = some (true, st')) :
    parse_sublink_order year sublinks g st' sublink = some (true, st') := by
  unfold parse_sublink_order at h ⊢
  rcases hp : pageNameMatch year sublink with _ | idx <;> simp only [hp] at h ⊢
  · simp at h
  · by_cases hin : (alookup st.pages idx).isSome = true
    · rw [if_pos hin] at h
      rw [Option.some_inj, Prod.mk.injEq] at h
      obtain ⟨-, h⟩ := h
      subst h
      rw [if_pos hin]
    · rw [if_neg hin] at h
      rcases hf : f (if 2010 ≤ year then sublinks ++ sublink else sublinks ++ idx)
        with _ | doc <;> simp only [hf] at h
      · simp at h
      · rcases hd : get_steno_date doc.title with _ | ⟨b, date⟩ <;>
          simp only [hd] at h
        · simp at h
        · cases b
          · simp at h
          · rw [Option.some_inj, Prod.mk.injEq] at h
            obtain ⟨-, h⟩ := h
            subst h
            rw [if_pos (alookup_append_singleton_isSome st.pages idx _)]


/-- Witness: after the concrete first resolution, a second resolution
under an always-failing fetch oracle still returns true with the state
unchanged. -/
theorem parse_sublink_order_idempotent_witness :
    parse_sublink_order 2015 "BASE/" (fun _ => none) resolvedState
      "s001.html#q1" = some (true, resolvedState) :=
  parse_sublink_order_idempotent 2015 "BASE/" subPageFetch (fun _ => none)
    ⟨[], []⟩ resolvedState "s001.html#q1" (by decide)

/-! ## Claim C8 -/

/-- Claim C8: while enriching a speaker stub, a failing fetch of the
biography page — the government page or the matched legislator detail
page — aborts the whole run (the error value models `sys.exit(-1)`),
whereas an ordinary sub-page fetch failure in the resolver merely makes
the resolver return false with the state unchanged, skipping the unit. -/
theorem enrichment_fetch_failure_aborts (sp : Speaker)
    (f : String → Option Doc) (h0 : sp.name = "") :
    (substrB "https://www.vlada.cz/cz/".data sp.link.data = true →
       f sp.link = none → enrich_speaker f sp = .error ()) ∧
    (substrB "https://www.vlada.cz/cz/".data sp.link.data = false →
       substrB "/sqw/detail.sqw".data sp.link.data = true →
       detailIdMatch sp.link = true →
       f ("http://www.psp.cz/" ++ sp.link) = none →
       enrich_speaker f sp = .error ()) ∧
    (∀ (year : Nat) (sublinks : String) (rst : ResolverState)
       (sl pidx : String),
       pageNameMatch year sl = some pidx → alookup rst.pages pidx = none →
       parse_sublink_order year sublinks (fun _ => none) rst sl =
         some (false, rst)) := by
  have hlen : ¬ 0 < sp.name.length := by
    simp [h0]
  refine ⟨?_, ?_, ?_⟩
  · intro hsub hf
    simp [enrich_speaker, hlen, hsub, hf]
  · intro hsub1 hsub2 hid hf
    simp [enrich_speaker, hlen, hsub1, hsub2, hid, hf]
  · intro year sublinks rst sl pidx hp hnone
    simp [parse_sublink_order, hp, hnone]

/-- Witness: a concrete un-enriched government speaker under an
always-failing fetch oracle aborts with the fatal error, and the
resolver under the same failing oracle merely returns false. -/
theorem enrichment_fetch_failure_aborts_witness :
    enrich_speaker (fun _ => none)
        ⟨"Ministr B", "", "", "", "", "", "", "", "https://www.vlada.cz/cz/x"⟩ =
      .error () ∧
    parse_sublink_order 2015 "BASE/" (fun _ => none) ⟨[], []⟩
        "s001.html#q1" = some (false, ⟨[], []⟩) :=
  ⟨(enrichment_fetch_failure_aborts _ _ rfl).1 (by decide) rfl,
   (enrichment_fetch_failure_aborts
       ⟨"Ministr B", "", "", "", "", "", "", "", "https://www.vlada.cz/cz/x"⟩
       (fun _ => none) rfl).2.2 2015 "BASE/" ⟨[], []⟩ "s001.html#q1"
     "s001.html" (by decide) (by decide)⟩

/-! ## Claim C9 -/

/-- Claim C9: when the date of a freshly fetched sub-page cannot be
parsed from its title, the resolver returns false with the resolver
state unchanged — the sub-page is not recorded in the pages cache and the
InterventionsIndex is untouched — and the topic loop leaves the whole
session state unchanged, extending no topic. -/
theorem date_failure_leaves_state_unchanged (year : Nat) (sublinks : String)
    (f : String → Option Doc) (st : FullState) (topic_id : Nat) (a : Anchor)
    (sublink page_idx ds : String) (doc : Doc)
    (ha : a.href = some sublink)
    (hh : substrB "/sqw/historie.sqw".data sublink.data = false)
    (hq : (get_qid_for_topic sublink).isSome = true)
    (hp : pageNameMatch year sublink = some page_idx)
    (hnew : alookup st.resolver.pages page_idx = none)
    (hf : f (if 2010 ≤ year then sublinks ++ sublink else sublinks ++ page_idx) =
      some doc)
    (hd : get_steno_date doc.title = some (false, ds)) :
    parse_sublink_order year sublinks f st.resolver sublink =
      some (false, st.resolver) ∧
    processTopicLink year sublinks f st topic_id a = st := by
  have h1 : parse_sublink_order year sublinks f st.resolver sublink =
      some (false, st.resolver) := by
    simp [parse_sublink_order, hp, hnew, hf, hd]
  refine ⟨h1, ?_⟩
  rcases hq' : get_qid_for_topic sublink with _ | q
  · rw [hq'] at hq
    simp at hq
  · simp only [processTopicLink, ha, hh, hq', h1]
    rfl


/-- Witness: with a concrete fetch oracle returning the undated fixture
document, the resolver returns false and the concrete session state is
unchanged. -/
theorem date_failure_leaves_state_unchanged_witness :
    parse_sublink_order 2015 "BASE/" (fun _ => some undatedDoc)
        topicInit.resolver "s001.html#q1" = some (false, topicInit.resolver) ∧
    processTopicLink 2015 "BASE/" (fun _ => some undatedDoc) topicInit 1
        topicLink = topicInit :=
  date_failure_leaves_state_unchanged 2015 "BASE/" (fun _ => some undatedDoc)
    topicInit 1 topicLink "s001.html#q1" "s001.html" "" undatedDoc rfl
    (by decide) (by decide) (by decide) (by decide) (by decide) (by decide)

/-! ## Claim C10 -/


/-- Every whitespace character surviving the collapse is the ordinary
space. -/
theorem collapseAux_mem_ws (l : List Char) :
    ∀ (b : Bool) (c : Char), c ∈ collapseAux b l → isWS c = true → c = ' ' := by
  induction l with
  | nil => simp [collapseAux]
  | cons a t ih =>
    intro b c hc hws
    by_cases ha : isWS a = true
    · cases b
      · simp only [collapseAux, ha, if_true] at hc
        rcases List.mem_cons.mp hc with h | h
        · exact h
        · exact ih true c h hws
      · simp only [collapseAux, ha, if_true] at hc
        exact ih true c hc hws
    · simp only [collapseAux, ha, if_false, Bool.false_eq_true] at hc
      rcases List.mem_cons.mp hc with h | h
      · rw [h] at hws
        simp [hws] at ha
      · exact ih false c h hws

/-- After the collapse the output has no two adjacent whitespace
characters, and in run-absorbing mode it never starts with
whitespace. -/
theorem collapseAux_props (l : List Char) :
    (∀ c, (collapseAux true l).head? = some c → isWS c = false) ∧
    ∀ b, List.Chain' noDoubleWS (collapseAux b l) := by
  induction l with
  | nil =>
    constructor
    · simp [collapseAux]
    · intro b
      simp [collapseAux]
  | cons a t ih =>
    obtain ⟨ihHead, ihChain⟩ := ih
    by_cases ha : isWS a = true
    · have htrue : collapseAux true (a :: t) = collapseAux true t := by
        simp [collapseAux, ha]
      have hfalse : collapseAux false (a :: t) = ' ' :: collapseAux true t := by
        simp [collapseAux, ha]
      constructor
      · intro c hc
        rw [htrue] at hc
        exact ihHead c hc
      · intro b
        cases b
        · rw [hfalse, List.chain'_cons']
          refine ⟨?_, ihChain true⟩
          intro y hy
          right
          exact ihHead y hy
        · rw [htrue]
          exact ihChain true
    · have hstep : ∀ b : Bool, collapseAux b (a :: t) = a :: collapseAux false t := by
        intro b
        simp [collapseAux, ha]
      have ha' : isWS a = false := by
        simpa using ha
      constructor
      · intro c hc
        rw [hstep true] at hc
        simp only [List.head?_cons, Option.some_inj] at hc
        rw [← hc]
        exact ha'
      · intro b
        rw [hstep b, List.chain'_cons']
        refine ⟨?_, ihChain false⟩
        intro y hy
        left
        exact ha'

/-- The head surviving a whitespace strip from the left is not
whitespace. -/
theorem head?_dropWhile_ws (x : List Char) :
    ∀ c, (x.dropWhile isWS).head? = some c → isWS c = false := by
  induction x with
  | nil => simp [List.dropWhile]
  | cons a t ih =>
    intro c hc
    by_cases ha : isWS a = true
    · rw [List.dropWhile_cons, if_pos ha] at hc
      exact ih c hc
    · rw [List.dropWhile_cons, if_neg ha] at hc
      simp only [List.head?_cons, Option.some_inj] at hc
      rw [← hc]
      simpa using ha

/-- The whitespace-normalization invariants of the collapse-then-strip
pipeline. -/
theorem stripL_collapse_props (t : List Char) :
    (∀ c ∈ stripL (collapseWS t), isWS c = true → c = ' ') ∧
    (∀ c, (stripL (collapseWS t)).head? = some c → isWS c = false) ∧
    (∀ c, (stripL (collapseWS t)).getLast? = some c → isWS c = false) ∧
    List.Chain' noDoubleWS (stripL (collapseWS t)) := by
  have hstrip : stripL (collapseWS t) =
      List.rdropWhile isWS ((collapseWS t).dropWhile isWS) := rfl
  have hpre : List.rdropWhile isWS ((collapseWS t).dropWhile isWS) <+:
      (collapseWS t).dropWhile isWS := List.rdropWhile_prefix _ _
  have hsuf : (collapseWS t).dropWhile isWS <:+ collapseWS t :=
    List.dropWhile_suffix _
  refine ⟨?_, ?_, ?_, ?_⟩
  · intro c hc hws
    have h1 : c ∈ (collapseWS t).dropWhile isWS := hpre.subset (hstrip ▸ hc)
    exact collapseAux_mem_ws t false c (hsuf.subset h1) hws
  · intro c hc
    rw [hstrip] at hc
    obtain ⟨r, hr⟩ := hpre
    rcases he : List.rdropWhile isWS ((collapseWS t).dropWhile isWS) with _ | ⟨x, xs⟩
    · rw [he] at hc
      simp at hc
    · rw [he] at hc
      simp only [List.head?_cons, Option.some_inj] at hc
      refine head?_dropWhile_ws (collapseWS t) c ?_
      rw [← hr, he, ← hc]
      simp
  · intro c hc
    rw [hstrip, List.rdropWhile] at hc
    rw [List.getLast?_reverse] at hc
    exact head?_dropWhile_ws _ c hc
  · rw [hstrip]
    exact List.Chain'.prefix
      (List.Chain'.suffix ((collapseAux_props t).2 false) hsuf) hpre

/-- The result of `filter_text` is the empty string or a stripped
collapse of some character list. -/
theorem filter_text_shape (s : String) :
    filter_text s = "" ∨
    ∃ t, filter_text s = String.mk (stripL (collapseWS t)) := by
  unfold filter_text
  by_cases hs : s.data.isEmpty = true
  · rw [if_pos hs]
    left
    rfl
  · rw [if_neg hs]
    right
    exact ⟨_, rfl⟩

/-- Claim C10: for every input, the text filter returns a string without
any no-break space, with a non-whitespace first and last character (when
non-empty), in which every whitespace character is the ordinary space and
no two adjacent characters are both whitespace — so every internal
maximal whitespace run is one single space — and the empty string maps to
the empty string. -/
theorem filter_text_normalizes (s : String) :
    (∀ c ∈ (filter_text s).data, isWS c = true → c = ' ') ∧
    nbsp ∉ (filter_text s).data ∧
    (∀ c, (filter_text s).data.head? = some c → isWS c = false) ∧
    (∀ c, (filter_text s).data.getLast? = some c → isWS c = false) ∧
    List.Chain' noDoubleWS (filter_text s).data ∧
    filter_text "" = "" := by
  have hnbsp : ∀ (l : List Char), (∀ c ∈ l, isWS c = true → c = ' ') → nbsp ∉ l := by
    intro l h hmem
    have := h nbsp hmem (by decide)
    exact absurd this (by decide)
  rcases filter_text_shape s with h | ⟨t, h⟩
  · rw [h]
    refine ⟨by simp, by simp, by simp, by simp, by simp, rfl⟩
  · rw [h]
    obtain ⟨m1, m2, m3, m4⟩ := stripL_collapse_props t
    exact ⟨m1, hnbsp _ m1, m2, m3, m4, rfl⟩

/-- Witness for the normalization theorem at a concrete string holding a
no-break space and redundant whitespace. -/
theorem filter_text_normalizes_witness :
    List.Chain' noDoubleWS (filter_text "  a\u00A0  b ").data ∧
    filter_text "  a\u00A0  b " = "a b" :=
  ⟨(filter_text_normalizes "  a\u00A0  b ").2.2.2.2.1, by decide⟩

/-! ## Claim C4 -/

/-- A literal consumes itself. -/
theorem litMatch_append (p s : List Char) : litMatch p (p ++ s) = some s := by
  induction p with
  | nil => rfl
  | cons a t ih => simp [litMatch, ih]

/-- A digit run stops exactly at the first non-digit. -/
theorem takeWhile_append_stop (f : Char → Bool) (l1 : List Char) (c : Char)
    (rest : List Char) (h1 : ∀ x ∈ l1, f x = true) (hc : f c = false) :
    (l1 ++ c :: rest).takeWhile f = l1 ∧ (l1 ++ c :: rest).dropWhile f = c :: rest := by
  induction l1 with
  | nil => simp [List.takeWhile_cons, List.dropWhile_cons, hc]
  | cons a t ih =>
    have ha := h1 a (List.mem_cons_self a t)
    obtain ⟨iht, ihd⟩ := ih (fun x hx => h1 x (List.mem_cons_of_mem _ hx))
    constructor <;>
      simp [List.takeWhile_cons, List.dropWhile_cons, ha, iht, ihd]

/-- A digit code point is not a whitespace code point. -/
theorem isDigit_not_isWS (c : Char) (h : isDigit c = true) : isWS c = false := by
  by_contra hws
  rw [Bool.not_eq_false] at hws
  unfold isWS at hws
  unfold isDigit at h
  simp only [Bool.or_eq_true, Bool.and_eq_true, decide_eq_true_eq] at hws h
  omega

/-- A digit is not the no-break space. -/
theorem isDigit_ne_nbsp (c : Char) (h : isDigit c = true) : c ≠ nbsp := by
  intro he
  rw [he] at h
  exact absurd h (by decide)

/-- The year matcher fails on a pure digit run. -/
theorem tailMatch_all_digits (ys : List Char)
    (h : ∀ c ∈ ys, isDigit c = true) : tailMatch ys = none := by
  induction ys with
  | nil => rfl
  | cons a t ih =>
    have ha := h a (List.mem_cons_self a t)
    have hws : isWS a = false := isDigit_not_isWS a ha
    simp [tailMatch, ih (fun c hc => h c (List.mem_cons_of_mem _ hc)), hws]

/-- The year matcher takes the final space plus four digits. -/
theorem tailMatch_space_digits (ys : List Char)
    (h : ∀ c ∈ ys, isDigit c = true) (hlen : ys.length = 4) :
    tailMatch (' ' :: ys) = some ([], ys) := by
  have htake : List.take 4 ys = ys := by
    rw [← hlen]
    simp
  have hall : ys.all isDigit = true := by
    rw [List.all_eq_true]
    exact h
  simp [tailMatch, tailMatch_all_digits ys h, htake, hall, hlen,
    show isWS ' ' = true from by decide]

/-- The greedy any-run of the year matcher captures everything before
the final space-and-year block. -/
theorem tailMatch_concat (a ys : List Char)
    (h : ∀ c ∈ ys, isDigit c = true) (hlen : ys.length = 4) :
    tailMatch (a ++ ' ' :: ys) = some (a, ys) := by
  induction a with
  | nil => simpa using tailMatch_space_digits ys h hlen
  | cons x xs ih => simp only [List.cons_append, tailMatch, List.append_eq, ih]

/-- The title matcher at a canonical title: header, session digits, dot,
separator, day digits, dot and space, the month word, a space and the
four-digit year yield exactly the day, month and year groups. -/
theorem stenoMatchAt_canonical (n d m y : List Char)
    (hn1 : n ≠ []) (hn2 : ∀ c ∈ n, isDigit c = true)
    (hd1 : d ≠ []) (hd2 : ∀ c ∈ d, isDigit c = true)
    (hy1 : y.length = 4) (hy2 : ∀ c ∈ y, isDigit c = true) :
    stenoMatchAt ("Stenografický zápis ".data ++
        (n ++ ('.' :: (" schůze, ".data ++
          (d ++ ('.' :: ' ' :: (m ++ (' ' :: y)))))))) = some (d, m, y) := by
  have hne : n.isEmpty = false := by
    cases n
    · exact absurd rfl hn1
    · rfl
  have hde : d.isEmpty = false := by
    cases d
    · exact absurd rfl hd1
    · rfl
  obtain ⟨hnt, hnd⟩ := takeWhile_append_stop isDigit n '.'
    (" schůze, ".data ++ (d ++ ('.' :: ' ' :: (m ++ (' ' :: y)))))
    hn2 (by decide)
  obtain ⟨hdt, hdd⟩ := takeWhile_append_stop isDigit d '.'
    (' ' :: (m ++ (' ' :: y))) hd2 (by decide)
  simp only [stenoMatchAt, litMatch_append, hnt, hnd, hne, hdt, hdd, hde,
    litMatch_append, tailMatch_concat m y hy2 hy1,
    show isWS ' ' = true from by decide, if_false, if_true,
    Bool.false_eq_true]

/-- The no-break-space substitution is the identity on a list free of
no-break spaces. -/
theorem map_nbsp_id (l : List Char) (h : ∀ c ∈ l, c ≠ nbsp) :
    l.map (fun c => if c = nbsp then ' ' else c) = l := by
  induction l with
  | nil => rfl
  | cons a t ih =>
    have ha := h a (List.mem_cons_self a t)
    simp [ha, ih (fun c hc => h c (List.mem_cons_of_mem _ hc))]

/-- A successful match at the start of the input is what the search
returns. -/
theorem stenoSearch_of_matchAt (l : List Char)
    (g : List Char × List Char × List Char) (h : stenoMatchAt l = some g) :
    stenoSearch l = some g := by
  cases l with
  | nil =>
    rw [show stenoMatchAt ([] : List Char) = none from by decide] at h
    exact Option.noConfusion h
  | cons c t => simp only [stenoSearch, h]

/-- Claim C4: for every canonical title built from a session number, a
day, a month name from the Czech month table and a four-digit year, date
derivation succeeds and returns the year followed by the zero-padded
two-digit month number followed by the zero-padded two-digit day. -/
theorem get_steno_date_canonical (n d m y : String) (mo : Nat)
    (hn1 : n.data ≠ []) (hn2 : ∀ c ∈ n.data, isDigit c = true)
    (hd1 : d.data ≠ []) (hd2 : ∀ c ∈ d.data, isDigit c = true)
    (hm : alookup CzechMonths m = some mo)
    (hmn : ∀ c ∈ m.data, c ≠ nbsp)
    (hy1 : y.data.length = 4) (hy2 : ∀ c ∈ y.data, isDigit c = true) :
    get_steno_date
        ("Stenografický zápis " ++ n ++ ". schůze, " ++ d ++ ". " ++ m ++ " " ++ y) =
      some (true, y ++ pad2 mo ++ pad2 (digitsToNat d.data)) := by
  have hdata : ("Stenografický zápis " ++ n ++ ". schůze, " ++ d ++ ". " ++ m ++ " " ++ y).data
      = "Stenografický zápis ".data ++
        (n.data ++ ('.' :: (" schůze, ".data ++
          (d.data ++ ('.' :: ' ' :: (m.data ++ (' ' :: y.data))))))) := by
    simp only [String.data_append, List.append_assoc,
      show (". schůze, " : String).data = '.' :: (" schůze, " : String).data from rfl,
      show (". " : String).data = ['.', ' '] from rfl,
      show (" " : String).data = [' '] from rfl,
      List.cons_append, List.nil_append]
  have hall : ∀ c ∈ "Stenografický zápis ".data ++
        (n.data ++ ('.' :: (" schůze, ".data ++
          (d.data ++ ('.' :: ' ' :: (m.data ++ (' ' :: y.data))))))), c ≠ nbsp := by
    simp only [List.forall_mem_append, List.forall_mem_cons]
    refine ⟨by decide, ⟨fun c hc => isDigit_ne_nbsp c (hn2 c hc), by decide,
      by decide, ⟨fun c hc => isDigit_ne_nbsp c (hd2 c hc), by decide, by decide,
      ⟨hmn, by decide, fun c hc => isDigit_ne_nbsp c (hy2 c hc)⟩⟩⟩⟩
  have hempty : ("Stenografický zápis ".data ++
        (n.data ++ ('.' :: (" schůze, ".data ++
          (d.data ++ ('.' :: ' ' :: (m.data ++ (' ' :: y.data)))))))).isEmpty = false := by
    rw [show ("Stenografický zápis " : String).data =
      'S' :: ("tenografický zápis " : String).data from rfl, List.cons_append]
    rfl
  unfold get_steno_date
  rw [hdata, if_neg (by simp [hempty])]
  simp only [map_nbsp_id _ hall,
    stenoSearch_of_matchAt _ _
      (stenoMatchAt_canonical n.data d.data m.data y.data hn1 hn2 hd1 hd2 hy1 hy2),
    show String.mk m.data = m from rfl, hm,
    show String.mk y.data = y from rfl]

/-- Witness: the title of the fifth sitting of the third of February 2015
derives the expected date string. -/
theorem get_steno_date_canonical_witness :
    get_steno_date "Stenografický zápis 5. schůze, 3. února 2015" =
      some (true, "20150203") := by
  have h := get_steno_date_canonical "5" "3" "února" "2015" 2
    (by decide) (by decide) (by decide) (by decide) (by decide) (by decide)
    (by decide) (by decide)
  exact h

end Pspcz
